import Mathlib

/-!
Shallow embedding of the hotel revenue tool's parsing and aggregation core:
`processDayRevenue` and `getMonthSummaryForDate` from `src/App.tsx`, and
`analyzeCellValue` from the earlier application variant in `src/unnamed/part_000`.

Modelling conventions:
* JS strings are Lean `String`s; the character-level logic works on `String.data`.
* JS numbers are modelled exactly: the integer arithmetic in `Int`/`Nat`, and the
  single division (the daily average) in `ℚ`.
* `parseInt(cleaned, 10) || 0` is modelled by `parseIntOr0`: skip leading
  whitespace, read an optional sign, then the longest run of decimal digits;
  no digits (JS `NaN`) gives `0`, and JS `-0 || 0 = 0` coincides with
  `-(0 : Int) = 0`.
* `value.split(' ')` splits on the single space character; `splitOnSpace`
  mirrors it, including the empty pieces produced by adjacent separators,
  which `.filter(Boolean)` then drops.
* `localStorage` is modelled as an explicit read-only store value passed in and
  returned unchanged, mirroring that `getMonthSummaryForDate` only calls
  `getItem` (JSON decoding of the stored bucket belongs to the persistence
  collaborator and is outside the core).
-/

namespace HotelRevenue

/-- The ECMAScript whitespace characters recognised by `String.prototype.trim`
and skipped by `parseInt` (space, tab, LF, CR, VT, FF, NBSP, BOM); the claims
only exercise the ASCII ones. -/
def jsWhitespace (c : Char) : Bool :=
  c == ' ' || c == '\t' || c == '\n' || c == '\r' ||
  c == Char.ofNat 11 || c == Char.ofNat 12 || c == Char.ofNat 160 ||
  c == Char.ofNat 0xFEFF

/-- `value.split(' ')` from `processDayRevenue` / `analyzeCellValue`: split on
every single space character, keeping the empty pieces between adjacent
separators (JS `String.prototype.split` semantics). -/
def splitOnSpace : List Char → List (List Char)
  | [] => [[]]
  | c :: rest =>
    if c = ' ' then
      [] :: splitOnSpace rest
    else
      match splitOnSpace rest with
      | [] => [[c]]
      | t :: ts => (c :: t) :: ts

/-- `value.split(' ').filter(Boolean)`: the non-empty tokens of a raw cell. -/
def tokens (cs : List Char) : List (List Char) :=
  (splitOnSpace cs).filter (fun t => !t.isEmpty)

/-- `entry.replace(/[\.,]/g, '')`: strip every `.` and `,` from a token. -/
def cleanToken (t : List Char) : List Char :=
  t.filter (fun c => !(c == '.' || c == ','))

/-- Value of a run of decimal digits, most significant first. -/
def digitsToNat (ds : List Char) : Nat :=
  ds.foldl (fun n c => 10 * n + (c.toNat - '0'.toNat)) 0

/-- `parseInt(s, 10) || 0`: skip leading whitespace, read an optional sign,
then the longest run of ASCII decimal digits; an empty digit run is JS `NaN`,
which `|| 0` turns into `0`. -/
def parseIntOr0 (cs : List Char) : Int :=
  match cs.dropWhile jsWhitespace with
  | [] => 0
  | c :: rest =>
    if c = '-' then
      let ds := rest.takeWhile Char.isDigit
      if ds.isEmpty then 0 else -(digitsToNat ds : Int)
    else if c = '+' then
      let ds := rest.takeWhile Char.isDigit
      if ds.isEmpty then 0 else (digitsToNat ds : Int)
    else
      let ds := (c :: rest).takeWhile Char.isDigit
      if ds.isEmpty then 0 else (digitsToNat ds : Int)

/-- `(parseInt(entry.replace(/[\.,]/g, ''), 10) || 0) * 1000`: the scaled value
one token contributes to the cell total. -/
def tokenValue (t : List Char) : Int :=
  parseIntOr0 (cleanToken t) * 1000

/-- The record `{ total, hasOvernight, overnightCount }` returned by
`processDayRevenue`. -/
structure CellResult where
  total : Int
  hasOvernight : Bool
  overnightCount : Nat
deriving Repr, DecidableEq

/-- One step of the `reduce` in `processDayRevenue`: add the token's scaled
value to the running sum and, when it exceeds the 150 000 overnight threshold,
set the flag and bump the count. -/
def cellStep (acc : Int × Bool × Nat) (entry : List Char) : Int × Bool × Nat :=
  let multipliedValue := tokenValue entry
  if 150000 < multipliedValue then
    (acc.1 + multipliedValue, true, acc.2.2 + 1)
  else
    (acc.1 + multipliedValue, acc.2.1, acc.2.2)

/-- `processDayRevenue` on the character list of the raw cell: the
`!value?.trim()` guard returns zeros for a whitespace-only cell, otherwise the
tokens are folded with `cellStep` from `(0, false, 0)`. -/
def parseCell (cs : List Char) : CellResult :=
  if cs.all jsWhitespace then
    ⟨0, false, 0⟩
  else
    let r := (tokens cs).foldl cellStep (0, false, 0)
    ⟨r.1, r.2.1, r.2.2⟩

/-- `processDayRevenue` from `src/App.tsx` (lines 23–41). -/
def processDayRevenue (value : String) : CellResult :=
  parseCell value.data

/-- The record `{ total, hasOvernight }` returned by `analyzeCellValue`. -/
structure AnalyzeResult where
  total : Int
  hasOvernight : Bool
deriving Repr, DecidableEq

/-- One step of the `reduce` in `analyzeCellValue`: identical to `cellStep`
except that no count is kept. -/
def analyzeStep (acc : Int × Bool) (entry : List Char) : Int × Bool :=
  let multipliedValue := tokenValue entry
  if 150000 < multipliedValue then
    (acc.1 + multipliedValue, true)
  else
    (acc.1 + multipliedValue, acc.2)

/-- `analyzeCellValue` on the character list of the raw cell. -/
def analyzeCell (cs : List Char) : AnalyzeResult :=
  if cs.all jsWhitespace then
    ⟨0, false⟩
  else
    let r := (tokens cs).foldl analyzeStep (0, false)
    ⟨r.1, r.2⟩

/-- `analyzeCellValue` from `src/unnamed/part_000` (lines 22–39). -/
def analyzeCellValue (value : String) : AnalyzeResult :=
  analyzeCell value.data

/-- One day's entry `{ day, total }` of the summary's `dailyTotals`. -/
structure DailyTotal where
  day : Nat
  total : Int
deriving Repr, DecidableEq

/-- The `MonthSummary` record from `src/types.ts`, without the locale-formatted
`monthName` display string (pure presentation, outside every claim). -/
structure MonthSummary where
  monthlyTotal : Int
  averageDailyRevenue : ℚ
  totalOvernightStays : Nat
  dailyTotals : List DailyTotal
deriving Repr, DecidableEq

/-- The `RevenueData` mapping `day → raw string` from `src/types.ts`; `none`
models an absent key. -/
def RevenueData : Type := Nat → Option String

/-- `data[day] || ''`: an absent day reads as the empty string (and an empty
string stays empty). -/
def dayRaw (data : RevenueData) (day : Nat) : String :=
  (data day).getD ""

/-- One iteration of the `Array.from({ length: dInMonth }, ...)` loop in
`getMonthSummaryForDate`: parse day `i + 1`, append its `{ day, total }` entry
and accumulate `monthlyTotal`, `daysWithRevenue` and `totalOvernightStays`. -/
def monthStep (data : RevenueData) (acc : List DailyTotal × Int × Nat × Nat)
    (i : Nat) : List DailyTotal × Int × Nat × Nat :=
  let day := i + 1
  let r := processDayRevenue (dayRaw data day)
  (acc.1 ++ [⟨day, r.total⟩],
   acc.2.1 + r.total,
   acc.2.2.1 + (if 0 < r.total then 1 else 0),
   acc.2.2.2 + r.overnightCount)

/-- The accumulation pass of the aggregator over days `1..dInMonth` in
ascending order: `(dailyTotals, monthlyTotal, daysWithRevenue,
totalOvernightStays)`. -/
def monthFold (data : RevenueData) (dInMonth : Nat) :
    List DailyTotal × Int × Nat × Nat :=
  (List.range dInMonth).foldl (monthStep data) ([], 0, 0, 0)

/-- The month aggregation from `src/App.tsx` (the loop of
`getMonthSummaryForDate`, lines 53–68, identical to the in-component
`currentMonthSummary`): fold the days, then
`averageDailyRevenue = daysWithRevenue > 0 ? monthlyTotal / daysWithRevenue : 0`. -/
def summarizeMonth (data : RevenueData) (dInMonth : Nat) : MonthSummary :=
  let r := monthFold data dInMonth
  { monthlyTotal := r.2.1
    averageDailyRevenue :=
      if 0 < r.2.2.1 then (r.2.1 : ℚ) / (r.2.2.1 : ℚ) else 0
    totalOvernightStays := r.2.2.2
    dailyTotals := r.1 }

/-- A `(year, month)` pair identifying one stored bucket. -/
def Period : Type := Nat × Nat

/-- The `localStorage` contents seen by the aggregator: one decoded
`RevenueData` bucket per `(year, month)` key. -/
def Store : Type := Period → RevenueData

/-- `getMonthSummaryForDate` from `src/App.tsx` (lines 44–69) with its effects
made explicit: it reads the bucket of the requested period from the store
(`localStorage.getItem`), computes the summary, and leaves the store exactly as
it found it (the function never calls `setItem`). `dInMonth` is the
calendar-derived day count the source computes from the `Date` argument. -/
def getMonthSummaryForDate (store : Store) (p : Period) (dInMonth : Nat) :
    MonthSummary × Store :=
  (summarizeMonth (store p) dInMonth, store)

/-- The qualifying test of the overnight branch, as a Boolean on tokens. -/
def isOvernightToken (t : List Char) : Bool :=
  decide (150000 < tokenValue t)

/-- Join a list of tokens with single spaces (the claim-side constructor for
space-separated cells). -/
def joinTokens : List (List Char) → List Char
  | [] => []
  | [t] => t
  | t :: ts => t ++ ' ' :: joinTokens ts

/-- The cell result of day `i + 1` (the loop body's call to the Entry Parser). -/
def dayResult (data : RevenueData) (i : Nat) : CellResult :=
  processDayRevenue (dayRaw data (i + 1))

/-- The shape `parseInt` can give a non-zero answer on: after the separator
stripping and `parseInt`'s own leading-whitespace skip and optional single
sign, the token starts with at least one decimal digit. -/
def hasLeadingInt (cs : List Char) : Bool :=
  match cs.dropWhile jsWhitespace with
  | [] => false
  | c :: rest =>
    if c = '-' ∨ c = '+' then !(rest.takeWhile Char.isDigit).isEmpty
    else !((c :: rest).takeWhile Char.isDigit).isEmpty

example : processDayRevenue "50" = ⟨50000, false, 0⟩ := by decide
example : processDayRevenue "" = ⟨0, false, 0⟩ := by decide
example : processDayRevenue "   " = ⟨0, false, 0⟩ := by decide
example : processDayRevenue "200" = ⟨200000, true, 1⟩ := by decide
example : processDayRevenue "50 200 30" = ⟨280000, true, 1⟩ := by decide
example : processDayRevenue "abc 50" = ⟨50000, false, 0⟩ := by decide
example : processDayRevenue "1.000,50" = ⟨100050000, true, 1⟩ := by decide
example : processDayRevenue "-5" = ⟨-5000, false, 0⟩ := by decide
example : processDayRevenue "50abc" = ⟨50000, false, 0⟩ := by decide
example : (processDayRevenue "50\t60").total = 50000 := by decide
example : (processDayRevenue "50\t200").total = 50000 := by decide
example : processDayRevenue "200 300" = ⟨500000, true, 2⟩ := by decide
example : analyzeCellValue "50 200 30" = ⟨280000, true⟩ := by decide
example :
    summarizeMonth (fun _ => none) 3 =
      ⟨0, 0, 0, [⟨1, 0⟩, ⟨2, 0⟩, ⟨3, 0⟩]⟩ := by decide
example :
    summarizeMonth (fun d => if d = 2 then some "50 200" else none) 3 =
      ⟨250000, 250000, 1, [⟨1, 0⟩, ⟨2, 250000⟩, ⟨3, 0⟩]⟩ := by
  have h : monthFold (fun d => if d = 2 then some "50 200" else none) 3 =
      ([⟨1, 0⟩, ⟨2, 250000⟩, ⟨3, 0⟩], 250000, 1, 1) := by decide
  simp only [summarizeMonth, h]
  norm_num

/-- A digit character is never equal to a character that is not a digit. -/
theorem isDigit_ne (c x : Char) (hc : c.isDigit = true) (hx : x.isDigit = false) :
    c ≠ x := by
  intro e
  rw [e, hx] at hc
  exact Bool.false_ne_true hc

/-- Decimal digits are not JS whitespace. -/
theorem not_ws_of_isDigit (c : Char) (hc : c.isDigit = true) :
    jsWhitespace c = false := by
  have h1 : c ≠ ' ' := isDigit_ne c ' ' hc (by decide)
  have h2 : c ≠ '\t' := isDigit_ne c '\t' hc (by decide)
  have h3 : c ≠ '\n' := isDigit_ne c '\n' hc (by decide)
  have h4 : c ≠ '\r' := isDigit_ne c '\r' hc (by decide)
  have h5 : c ≠ Char.ofNat 11 := isDigit_ne c (Char.ofNat 11) hc (by decide)
  have h6 : c ≠ Char.ofNat 12 := isDigit_ne c (Char.ofNat 12) hc (by decide)
  have h7 : c ≠ Char.ofNat 160 := isDigit_ne c (Char.ofNat 160) hc (by decide)
  have h8 : c ≠ Char.ofNat 0xFEFF := isDigit_ne c (Char.ofNat 0xFEFF) hc (by decide)
  simp [jsWhitespace, h1, h2, h3, h4, h5, h6, h7, h8]

/-- `split` never produces an empty list of pieces. -/
theorem splitOnSpace_ne_nil (cs : List Char) : splitOnSpace cs ≠ [] := by
  induction cs with
  | nil => simp [splitOnSpace]
  | cons c rest ih =>
    by_cases h : c = ' '
    · simp [splitOnSpace, h]
    · simp only [splitOnSpace, if_neg h]
      cases hsp : splitOnSpace rest with
      | nil => exact absurd hsp ih
      | cons t ts => simp

/-- Splitting distributes over a space that joins two halves. -/
theorem splitOnSpace_append_space (a b : List Char) :
    splitOnSpace (a ++ ' ' :: b) = splitOnSpace a ++ splitOnSpace b := by
  induction a with
  | nil => simp [splitOnSpace]
  | cons c a ih =>
    by_cases h : c = ' '
    · subst h
      simp [splitOnSpace, ih]
    · cases hsp : splitOnSpace a with
      | nil => exact absurd hsp (splitOnSpace_ne_nil a)
      | cons t ts =>
        simp only [List.cons_append, splitOnSpace, if_neg h, List.append_eq, ih, hsp]

/-- A piece without spaces splits into itself. -/
theorem splitOnSpace_eq_self (t : List Char) (h : ∀ c ∈ t, c ≠ ' ') :
    splitOnSpace t = [t] := by
  induction t with
  | nil => rfl
  | cons c t ih =>
    have hc : c ≠ ' ' := h c (List.mem_cons_self c t)
    have ht : ∀ x ∈ t, x ≠ ' ' := fun x hx => h x (List.mem_cons_of_mem c hx)
    simp only [splitOnSpace, if_neg hc, ih ht]

/-- Every character of a split piece is a non-space character of the input. -/
theorem mem_of_mem_splitOnSpace {cs t : List Char} {c : Char}
    (ht : t ∈ splitOnSpace cs) (hc : c ∈ t) : c ∈ cs ∧ c ≠ ' ' := by
  induction cs generalizing t with
  | nil =>
    simp only [splitOnSpace, List.mem_singleton] at ht
    subst ht
    exact absurd hc (List.not_mem_nil c)
  | cons x rest ih =>
    by_cases h : x = ' '
    · rw [show splitOnSpace (x :: rest) = [] :: splitOnSpace rest by
        simp [splitOnSpace, h]] at ht
      rcases List.mem_cons.mp ht with rfl | ht'
      · exact absurd hc (List.not_mem_nil c)
      · obtain ⟨hm, hs⟩ := ih ht' hc
        exact ⟨List.mem_cons_of_mem x hm, hs⟩
    · simp only [splitOnSpace, if_neg h] at ht
      cases hsp : splitOnSpace rest with
      | nil => exact absurd hsp (splitOnSpace_ne_nil rest)
      | cons t0 ts =>
        rw [hsp] at ht
        rcases List.mem_cons.mp ht with rfl | ht'
        · rcases List.mem_cons.mp hc with rfl | hc'
          · exact ⟨List.mem_cons_self c rest, h⟩
          · obtain ⟨hm, hs⟩ :=
              ih (t := t0) (by rw [hsp]; exact List.mem_cons_self t0 ts) hc'
            exact ⟨List.mem_cons_of_mem x hm, hs⟩
        · obtain ⟨hm, hs⟩ :=
            ih (t := t) (by rw [hsp]; exact List.mem_cons_of_mem t0 ht') hc
          exact ⟨List.mem_cons_of_mem x hm, hs⟩

/-- Tokens of a whitespace-only cell all have value zero: `parseInt` skips the
leading whitespace, finds no digits, and `|| 0` turns the `NaN` into `0`. -/
theorem tokenValue_eq_zero_of_ws (t : List Char)
    (hws : ∀ c ∈ t, jsWhitespace c = true) : tokenValue t = 0 := by
  have h1 : ∀ c ∈ cleanToken t, jsWhitespace c = true :=
    fun c hc => hws c (List.mem_of_mem_filter hc)
  have h2 : (cleanToken t).dropWhile jsWhitespace = [] :=
    List.dropWhile_eq_nil_iff.mpr fun c hc => h1 c hc
  unfold tokenValue parseIntOr0
  rw [h2]
  simp

/-- Closed form of the `reduce` of `processDayRevenue`: running sum of scaled
values, flag ored with "some token qualifies", count plus the number of
qualifying tokens. -/
theorem foldl_cellStep (ts : List (List Char)) (a : Int) (b : Bool) (n : Nat) :
    ts.foldl cellStep (a, b, n) =
      (a + (ts.map tokenValue).sum,
       b || ts.any isOvernightToken,
       n + ts.countP isOvernightToken) := by
  induction ts generalizing a b n with
  | nil => simp
  | cons t ts ih =>
    simp only [List.foldl_cons, List.map_cons, List.sum_cons, List.any_cons,
      List.countP_cons, cellStep]
    by_cases h : 150000 < tokenValue t
    · rw [if_pos h, ih]
      simp only [Prod.mk.injEq]
      refine ⟨by ring, ?_, ?_⟩
      · simp [isOvernightToken, h]
      · simp [isOvernightToken, h]
        omega
    · rw [if_neg h, ih]
      simp only [Prod.mk.injEq]
      refine ⟨by ring, ?_, ?_⟩
      · simp [isOvernightToken, h]
      · simp [isOvernightToken, h]

/-- Closed form of the `reduce` of `analyzeCellValue`. -/
theorem foldl_analyzeStep (ts : List (List Char)) (a : Int) (b : Bool) :
    ts.foldl analyzeStep (a, b) =
      (a + (ts.map tokenValue).sum, b || ts.any isOvernightToken) := by
  induction ts generalizing a b with
  | nil => simp
  | cons t ts ih =>
    simp only [List.foldl_cons, List.map_cons, List.sum_cons, List.any_cons,
      analyzeStep]
    by_cases h : 150000 < tokenValue t
    · rw [if_pos h, ih]
      simp only [Prod.mk.injEq]
      exact ⟨by ring, by simp [isOvernightToken, h]⟩
    · rw [if_neg h, ih]
      simp only [Prod.mk.injEq]
      exact ⟨by ring, by simp [isOvernightToken, h]⟩

/-- In a whitespace-only cell every token has value zero. -/
theorem tokens_value_zero_of_ws {cs : List Char} (h : cs.all jsWhitespace = true) :
    ∀ t ∈ tokens cs, tokenValue t = 0 := by
  intro t ht
  apply tokenValue_eq_zero_of_ws
  intro c hc
  have ht' : t ∈ splitOnSpace cs := List.mem_of_mem_filter ht
  exact List.all_eq_true.mp h c (mem_of_mem_splitOnSpace ht' hc).1

/-- Closed form of `processDayRevenue`: the `!value?.trim()` guard is
observationally redundant (a whitespace-only cell has only zero-valued tokens),
so on every input the result is token-wise: total is the sum of scaled token
values, the flag says some token exceeds the threshold, the count counts the
tokens that do. -/
theorem parseCell_eq (cs : List Char) :
    parseCell cs =
      ⟨((tokens cs).map tokenValue).sum,
       (tokens cs).any isOvernightToken,
       (tokens cs).countP isOvernightToken⟩ := by
  unfold parseCell
  by_cases h : cs.all jsWhitespace
  · rw [if_pos h]
    have hz := tokens_value_zero_of_ws h
    have hsum : ((tokens cs).map tokenValue).sum = 0 :=
      List.sum_eq_zero (by
        intro x hx
        obtain ⟨t, ht, rfl⟩ := List.mem_map.mp hx
        exact hz t ht)
    have hover : ∀ t ∈ tokens cs, isOvernightToken t = false := by
      intro t ht
      apply decide_eq_false
      rw [hz t ht]
      norm_num
    have hany : (tokens cs).any isOvernightToken = false := by
      rw [List.any_eq_false]
      intro t ht
      simp [hover t ht]
    have hcount : (tokens cs).countP isOvernightToken = 0 :=
      List.countP_eq_zero.mpr (by
        intro t ht
        simp [hover t ht])
    rw [hsum, hany, hcount]
  · rw [if_neg h]
    rw [foldl_cellStep]
    simp

/-- Closed form of `analyzeCellValue`, mirroring `parseCell_eq`. -/
theorem analyzeCell_eq (cs : List Char) :
    analyzeCell cs =
      ⟨((tokens cs).map tokenValue).sum,
       (tokens cs).any isOvernightToken⟩ := by
  unfold analyzeCell
  by_cases h : cs.all jsWhitespace
  · rw [if_pos h]
    have hz := tokens_value_zero_of_ws h
    have hsum : ((tokens cs).map tokenValue).sum = 0 :=
      List.sum_eq_zero (by
        intro x hx
        obtain ⟨t, ht, rfl⟩ := List.mem_map.mp hx
        exact hz t ht)
    have hany : (tokens cs).any isOvernightToken = false := by
      rw [List.any_eq_false]
      intro t ht
      have : isOvernightToken t = false := by
        apply decide_eq_false
        rw [hz t ht]
        norm_num
      simp [this]
    rw [hsum, hany]
  · rw [if_neg h]
    rw [foldl_analyzeStep]
    simp

/-- Separator stripping leaves an all-digit token unchanged. -/
theorem cleanToken_of_digits (t : List Char) (h : t.all Char.isDigit = true) :
    cleanToken t = t := by
  apply List.filter_eq_self.mpr
  intro c hc
  have hd := List.all_eq_true.mp h c hc
  have h1 : c ≠ '.' := isDigit_ne c '.' hd (by decide)
  have h2 : c ≠ ',' := isDigit_ne c ',' hd (by decide)
  simp [h1, h2]

/-- A non-empty all-digit token contributes exactly its base-10 value ×1000. -/
theorem tokenValue_of_digits (t : List Char) (hne : t ≠ [])
    (h : t.all Char.isDigit = true) :
    tokenValue t = (digitsToNat t : Int) * 1000 := by
  unfold tokenValue
  rw [cleanToken_of_digits t h]
  cases t with
  | nil => exact absurd rfl hne
  | cons d rest =>
    have hd : d.isDigit = true := List.all_eq_true.mp h d (List.mem_cons_self d rest)
    have hdw : (d :: rest).dropWhile jsWhitespace = d :: rest := by
      rw [List.dropWhile_cons, not_ws_of_isDigit d hd]
      simp
    have h1 : d ≠ '-' := isDigit_ne d '-' hd (by decide)
    have h2 : d ≠ '+' := isDigit_ne d '+' hd (by decide)
    have htw : (d :: rest).takeWhile Char.isDigit = d :: rest :=
      List.takeWhile_eq_self_iff.mpr (fun c hc => List.all_eq_true.mp h c hc)
    unfold parseIntOr0
    rw [hdw]
    simp only [if_neg h1, if_neg h2, htw]
    simp

/-- Without a minus sign anywhere in its input, `parseInt(s, 10) || 0` is
non-negative. -/
theorem parseIntOr0_nonneg (cs : List Char) (h : '-' ∉ cs) :
    0 ≤ parseIntOr0 cs := by
  unfold parseIntOr0
  cases hd : cs.dropWhile jsWhitespace with
  | nil => simp
  | cons c rest =>
    have hc : c ≠ '-' := by
      intro e
      subst e
      apply h
      have hm : '-' ∈ cs.dropWhile jsWhitespace := by
        rw [hd]
        exact List.mem_cons_self _ _
      exact (List.dropWhile_sublist jsWhitespace).mem hm
    show 0 ≤
      (if c = '-' then
        (let ds := rest.takeWhile Char.isDigit
         if ds.isEmpty then 0 else -(digitsToNat ds : Int))
      else if c = '+' then
        (let ds := rest.takeWhile Char.isDigit
         if ds.isEmpty then 0 else (digitsToNat ds : Int))
      else
        (let ds := (c :: rest).takeWhile Char.isDigit
         if ds.isEmpty then 0 else (digitsToNat ds : Int)))
    rw [if_neg hc]
    split
    · dsimp only
      split
      · exact le_refl 0
      · exact Int.natCast_nonneg _
    · dsimp only
      split
      · exact le_refl 0
      · exact Int.natCast_nonneg _

/-- Every character of a token of `cs` is a character of `cs`, after separator
stripping too. -/
theorem mem_of_mem_cleanToken_tokens {cs t : List Char} {c : Char}
    (ht : t ∈ tokens cs) (hc : c ∈ cleanToken t) : c ∈ cs := by
  have h1 : c ∈ t := List.mem_of_mem_filter hc
  have h2 : t ∈ splitOnSpace cs := List.mem_of_mem_filter ht
  exact (mem_of_mem_splitOnSpace h2 h1).1

/-- Without a minus sign in the cell, every token's scaled value is
non-negative. -/
theorem tokenValue_nonneg {cs t : List Char} (h : '-' ∉ cs) (ht : t ∈ tokens cs) :
    0 ≤ tokenValue t := by
  unfold tokenValue
  have : '-' ∉ cleanToken t := fun hm => h (mem_of_mem_cleanToken_tokens ht hm)
  have hp := parseIntOr0_nonneg (cleanToken t) this
  positivity

/-- Tokenising a single-space join recovers exactly the non-empty, space-free
tokens it was built from. -/
theorem tokens_joinTokens (ts : List (List Char))
    (h : ∀ t ∈ ts, t ≠ [] ∧ ∀ c ∈ t, c ≠ ' ') :
    tokens (joinTokens ts) = ts := by
  induction ts with
  | nil => rfl
  | cons t ts ih =>
    obtain ⟨hne, hns⟩ := h t (List.mem_cons_self t ts)
    cases ts with
    | nil =>
      show tokens (joinTokens [t]) = [t]
      unfold joinTokens tokens
      rw [splitOnSpace_eq_self t hns]
      simp [hne]
    | cons t2 ts2 =>
      have hrest : ∀ x ∈ t2 :: ts2, x ≠ [] ∧ ∀ c ∈ x, c ≠ ' ' :=
        fun x hx => h x (List.mem_cons_of_mem t hx)
      have hj : joinTokens (t :: t2 :: ts2) = t ++ ' ' :: joinTokens (t2 :: ts2) := rfl
      unfold tokens
      rw [hj, splitOnSpace_append_space, List.filter_append, splitOnSpace_eq_self t hns]
      have hrec := ih hrest
      unfold tokens at hrec
      rw [hrec]
      simp [hne]

/-- Closed form of the aggregation loop: entry list, running total, count of
revenue days, and overnight total over days `1..D` in ascending order. -/
theorem monthFold_eq (data : RevenueData) (D : Nat) :
    monthFold data D =
      ((List.range D).map (fun i => ⟨i + 1, (dayResult data i).total⟩),
       ((List.range D).map (fun i => (dayResult data i).total)).sum,
       (List.range D).countP (fun i => decide (0 < (dayResult data i).total)),
       ((List.range D).map (fun i => (dayResult data i).overnightCount)).sum) := by
  induction D with
  | zero => rfl
  | succ n ih =>
    unfold monthFold at ih ⊢
    rw [List.range_succ, List.foldl_append, ih]
    simp only [List.foldl_cons, List.foldl_nil, monthStep, List.map_append,
      List.sum_append, List.countP_append, List.map_cons, List.sum_cons,
      List.map_nil, List.sum_nil, List.countP_cons, List.countP_nil,
      Prod.mk.injEq, dayResult]
    refine ⟨trivial, by omega, ?_, by omega⟩
    by_cases h : 0 < (processDayRevenue (dayRaw data (n + 1))).total
    · simp [h]
    · simp [h]

/-- Splitting, and hence tokenisation, turns a space-join into list
concatenation of the halves' pieces. -/
theorem tokens_append_space (a b : List Char) :
    tokens (a ++ ' ' :: b) = tokens a ++ tokens b := by
  unfold tokens
  rw [splitOnSpace_append_space, List.filter_append]

/-- A leading space is just a dropped empty token. -/
theorem tokens_cons_space (b : List Char) : tokens (' ' :: b) = tokens b := by
  unfold tokens
  rw [show splitOnSpace (' ' :: b) = [] :: splitOnSpace b by simp [splitOnSpace]]
  simp

/-- The flag of a cell is set exactly when the count of qualifying tokens is
positive. -/
theorem any_eq_decide_countP_pos (ts : List (List Char)) :
    ts.any isOvernightToken = decide (0 < ts.countP isOvernightToken) := by
  by_cases h : ts.any isOvernightToken = true
  · rw [h]
    obtain ⟨t, ht, hp⟩ := List.any_eq_true.mp h
    have hpos : 0 < ts.countP isOvernightToken :=
      List.countP_pos_iff.mpr ⟨t, ht, hp⟩
    simp [hpos]
  · rw [Bool.not_eq_true] at h
    rw [h]
    have hz : ts.countP isOvernightToken = 0 :=
      List.countP_eq_zero.mpr (List.any_eq_false.mp h)
    simp [hz]

/-- Claim C2: for every day count `D` and per-day raw mapping, the summary's
`monthlyTotal` is the sum of the `dailyTotals` entries' totals, and
`totalOvernightStays` is the sum over days `1..D` of the `overnightCount` the
Entry Parser returns for that day's cell. -/
theorem claim2_month_invariants (data : RevenueData) (D : Nat) :
    (summarizeMonth data D).monthlyTotal =
      ((summarizeMonth data D).dailyTotals.map DailyTotal.total).sum ∧
    (summarizeMonth data D).totalOvernightStays =
      ((List.range D).map
        (fun i => (processDayRevenue (dayRaw data (i + 1))).overnightCount)).sum := by
  constructor
  · simp only [summarizeMonth, monthFold_eq, List.map_map]
    exact (congrArg List.sum (List.map_congr_left (fun i _ => rfl))).symm
  · simp [summarizeMonth, monthFold_eq, dayResult]

/-- Claim C3: a token is classified as overnight exactly when its scaled value
strictly exceeds 150 000 — `overnightCount` is the number of such tokens (one
increment per qualifying token, not only the first), `hasOvernight` is set iff
the count is positive, a scaled value of exactly 150 000 does not qualify, and
the spec's examples hold. -/
theorem claim3_overnight_threshold :
    (∀ s : String,
      (processDayRevenue s).overnightCount =
        ((tokens s.data).filter (fun t => decide (150000 < tokenValue t))).length ∧
      (processDayRevenue s).hasOvernight =
        decide (0 < (processDayRevenue s).overnightCount)) ∧
    processDayRevenue "150" = ⟨150000, false, 0⟩ ∧
    processDayRevenue "200" = ⟨200000, true, 1⟩ ∧
    processDayRevenue "50 200 30" = ⟨280000, true, 1⟩ ∧
    (processDayRevenue "200 300").overnightCount = 2 := by
  refine ⟨?_, by decide, by decide, by decide, by decide⟩
  intro s
  have hp : processDayRevenue s =
      ⟨((tokens s.data).map tokenValue).sum,
       (tokens s.data).any isOvernightToken,
       (tokens s.data).countP isOvernightToken⟩ := parseCell_eq s.data
  rw [hp]
  constructor
  · show (tokens s.data).countP isOvernightToken =
      ((tokens s.data).filter (fun t => decide (150000 < tokenValue t))).length
    exact List.countP_eq_length_filter ..
  · show (tokens s.data).any isOvernightToken =
      decide (0 < (tokens s.data).countP isOvernightToken)
    exact any_eq_decide_countP_pos (tokens s.data)

/-- Claim C7: the summary's average is the monthly total divided by the number
of days with a strictly positive total, and 0 when there is no such day (the
division-by-zero guard of the source). -/
theorem claim7_average_daily_revenue (data : RevenueData) (D : Nat) :
    (summarizeMonth data D).averageDailyRevenue =
      (if ((summarizeMonth data D).dailyTotals.filter
            (fun dt => decide (0 < dt.total))).length = 0
       then 0
       else ((summarizeMonth data D).monthlyTotal : ℚ) /
         (((summarizeMonth data D).dailyTotals.filter
            (fun dt => decide (0 < dt.total))).length : ℚ)) := by
  have hk : ((summarizeMonth data D).dailyTotals.filter
        (fun dt => decide (0 < dt.total))).length =
      (List.range D).countP (fun i => decide (0 < (dayResult data i).total)) := by
    rw [← List.countP_eq_length_filter]
    simp only [summarizeMonth, monthFold_eq]
    rw [List.countP_map]
    rfl
  rw [hk]
  simp only [summarizeMonth, monthFold_eq]
  by_cases h : (List.range D).countP (fun i => decide (0 < (dayResult data i).total)) = 0
  · simp [h]
  · have hpos : 0 < (List.range D).countP (fun i => decide (0 < (dayResult data i).total)) :=
      Nat.pos_of_ne_zero h
    simp [h, hpos]

/-- Claim C9: the Entry Parser and the aggregation are deterministic pure
functions — identical inputs give identical outputs; summarising leaves the
store exactly as found (`getMonthSummaryForDate` only reads), so computing one
month's summary never changes another's, and recomputation after another
summary yields the same value. -/
theorem claim9_purity :
    (∀ s : String, processDayRevenue s = processDayRevenue s) ∧
    (∀ (data : RevenueData) (D : Nat), summarizeMonth data D = summarizeMonth data D) ∧
    (∀ (store : Store) (p : Period) (D : Nat),
      (getMonthSummaryForDate store p D).2 = store) ∧
    (∀ (store : Store) (p q : Period) (Dp Dq : Nat),
      (getMonthSummaryForDate (getMonthSummaryForDate store p Dp).2 q Dq).1 =
        (getMonthSummaryForDate store q Dq).1) := by
  exact ⟨fun _ => rfl, fun _ _ => rfl, fun _ _ _ => rfl, fun _ _ _ _ _ => rfl⟩

/-- Claim C10: the two parsing variants agree on their shared fields — for
every input string `analyzeCellValue` and `processDayRevenue` return the same
`total` and the same `hasOvernight`. -/
theorem claim10_variants_agree (s : String) :
    (analyzeCellValue s).total = (processDayRevenue s).total ∧
    (analyzeCellValue s).hasOvernight = (processDayRevenue s).hasOvernight := by
  show (analyzeCell s.data).total = (parseCell s.data).total ∧
    (analyzeCell s.data).hasOvernight = (parseCell s.data).hasOvernight
  rw [analyzeCell_eq, parseCell_eq]
  exact ⟨rfl, rfl⟩

/-- Claim C1 counterexample: `"50"` and `"60"` separated by a tab — a
whitespace-separated pair of digit tokens — does not contribute both tokens:
the split is on the space character only, so `parseInt` stops at the tab and
the result is 50 000, not 50·1000 + 60·1000. -/
theorem claim1_counterexample :
    (processDayRevenue "50\t60").total = 50000 ∧
    (processDayRevenue "50\t60").total ≠ 50 * 1000 + 60 * 1000 := by decide

/-- Claim C1 (amended): for every raw cell consisting of SPACE-separated
decimal-digit tokens, each token contributes its base-10 value ×1000 to the
total; in particular `parse("50")` is `{50000, false, 0}`. -/
theorem claim1_scale_by_1000 :
    (∀ ts : List (List Char),
      (∀ t ∈ ts, t ≠ [] ∧ t.all Char.isDigit = true) →
      (parseCell (joinTokens ts)).total =
        (ts.map (fun t => (digitsToNat t : Int) * 1000)).sum) ∧
    processDayRevenue "50" = ⟨50000, false, 0⟩ := by
  refine ⟨?_, by decide⟩
  intro ts h
  have hsp : ∀ t ∈ ts, t ≠ [] ∧ ∀ c ∈ t, c ≠ ' ' := by
    intro t ht
    obtain ⟨hne, hd⟩ := h t ht
    exact ⟨hne, fun c hc =>
      isDigit_ne c ' ' (List.all_eq_true.mp hd c hc) (by decide)⟩
  rw [parseCell_eq]
  show ((tokens (joinTokens ts)).map tokenValue).sum = _
  rw [tokens_joinTokens ts hsp]
  congr 1
  apply List.map_congr_left
  intro t ht
  obtain ⟨hne, hd⟩ := h t ht
  exact tokenValue_of_digits t hne hd

/-- Claim C1 witness: the amended statement evaluated at the two-token cell
`"50 200"`. -/
theorem claim1_witness :
    (parseCell (joinTokens [['5', '0'], ['2', '0', '0']])).total =
      ([['5', '0'], ['2', '0', '0']].map
        (fun t => (digitsToNat t : Int) * 1000)).sum :=
  claim1_scale_by_1000.1 [['5', '0'], ['2', '0', '0']] (by decide)

/-- Claim C4 counterexample: the token `"50abc"` is not a valid non-negative
integer after separator stripping, yet it contributes 50 000, not zero:
`parseInt` reads the longest leading digit run. -/
theorem claim4_counterexample :
    (cleanToken ['5', '0', 'a', 'b', 'c']).all Char.isDigit = false ∧
    (processDayRevenue "50abc").total = 50000 ∧
    (processDayRevenue "50abc").total ≠ 0 := by decide

/-- Claim C4 (amended): the parser never fails — it totals every input — and a
token contributes zero whenever, after stripping `.` and `,`, it has no
leading base-10 integer (optional whitespace and sign, then at least one
digit); tokens with a leading integer contribute that prefix's value ×1000,
and `parse("abc 50")` is `{50000, false, 0}`. -/
theorem claim4_never_fails_invalid_zero :
    (∀ s : String, ∀ t ∈ tokens s.data,
      hasLeadingInt (cleanToken t) = false → tokenValue t = 0) ∧
    (∀ s : String,
      (processDayRevenue s).total = ((tokens s.data).map tokenValue).sum) ∧
    processDayRevenue "abc 50" = ⟨50000, false, 0⟩ := by
  refine ⟨?_, ?_, by decide⟩
  · intro s t ht hf
    unfold tokenValue
    suffices h : parseIntOr0 (cleanToken t) = 0 by rw [h]; ring
    unfold parseIntOr0
    unfold hasLeadingInt at hf
    cases hd : (cleanToken t).dropWhile jsWhitespace with
    | nil => rfl
    | cons c rest =>
      rw [hd] at hf
      have hf2 : (if c = '-' ∨ c = '+' then !(rest.takeWhile Char.isDigit).isEmpty
          else !((c :: rest).takeWhile Char.isDigit).isEmpty) = false := hf
      show (if c = '-' then
              (let ds := rest.takeWhile Char.isDigit
               if ds.isEmpty then 0 else -(digitsToNat ds : Int))
            else if c = '+' then
              (let ds := rest.takeWhile Char.isDigit
               if ds.isEmpty then 0 else (digitsToNat ds : Int))
            else
              (let ds := (c :: rest).takeWhile Char.isDigit
               if ds.isEmpty then 0 else (digitsToNat ds : Int))) = 0
      by_cases hc : c = '-'
      · rw [if_pos hc]
        rw [if_pos (Or.inl hc)] at hf2
        have he : (rest.takeWhile Char.isDigit).isEmpty = true := by
          simpa using hf2
        dsimp only
        rw [if_pos he]
      · by_cases hp : c = '+'
        · rw [if_neg hc, if_pos hp]
          rw [if_pos (Or.inr hp)] at hf2
          have he : (rest.takeWhile Char.isDigit).isEmpty = true := by
            simpa using hf2
          dsimp only
          rw [if_pos he]
        · rw [if_neg hc, if_neg hp]
          rw [if_neg (fun h => h.elim hc hp)] at hf2
          have he : ((c :: rest).takeWhile Char.isDigit).isEmpty = true := by
            simpa using hf2
          dsimp only
          rw [if_pos he]
  · intro s
    rw [show processDayRevenue s = parseCell s.data from rfl, parseCell_eq]

/-- Claim C4 witness: the amended statement evaluated at the all-letter token
of `"abc 50"`. -/
theorem claim4_witness : tokenValue ['a', 'b', 'c'] = 0 :=
  claim4_never_fails_invalid_zero.1 "abc 50" ['a', 'b', 'c'] (by decide) (by decide)

/-- Claim C5 counterexample: on the input `"-5"` the parser's total is −5000,
because `parseInt` accepts a leading minus sign — `total ≥ 0` fails for
arbitrary strings. -/
theorem claim5_counterexample :
    (processDayRevenue "-5").total = -5000 ∧
    ¬(0 ≤ (processDayRevenue "-5").total) := by decide

/-- Claim C5 (amended): for every input string that contains no `-` character
(in particular everything the UI's sanitiser lets through: digits, whitespace,
`.` and `,`), the total is non-negative; the overnight count is non-negative
on every input. -/
theorem claim5_nonneg :
    (∀ s : String, '-' ∉ s.data → 0 ≤ (processDayRevenue s).total) ∧
    (∀ s : String, 0 ≤ (processDayRevenue s).overnightCount) := by
  constructor
  · intro s hm
    show 0 ≤ (parseCell s.data).total
    rw [parseCell_eq]
    show 0 ≤ ((tokens s.data).map tokenValue).sum
    apply List.sum_nonneg
    intro x hx
    obtain ⟨t, ht, rfl⟩ := List.mem_map.mp hx
    exact tokenValue_nonneg hm ht
  · intro s
    exact Nat.zero_le _

/-- Claim C5 witness: the amended statement evaluated at `"50"`. -/
theorem claim5_witness : 0 ≤ (processDayRevenue "50").total :=
  claim5_nonneg.1 "50" (by decide)

/-- Claim C6 counterexample: a tab between `"50"` and `"200"` is not treated
as a separator — the parse differs from the space-separated cell: 50 000
versus 250 000. -/
theorem claim6_counterexample :
    processDayRevenue "50\t200" ≠ processDayRevenue "50 200" ∧
    (processDayRevenue "50\t200").total = 50000 ∧
    (processDayRevenue "50 200").total = 250000 := by decide

/-- Claim C6 (amended): the parser splits on the space character only (not on
whitespace of every kind) and drops the empty tokens adjacent separators
produce, so duplicating any space leaves the result unchanged — runs of
spaces behave as a single space. -/
theorem claim6_space_runs (a b : List Char) :
    parseCell (a ++ ' ' :: ' ' :: b) = parseCell (a ++ ' ' :: b) := by
  have htok : tokens (a ++ ' ' :: ' ' :: b) = tokens (a ++ ' ' :: b) := by
    rw [tokens_append_space a (' ' :: b), tokens_append_space a b, tokens_cons_space]
  have hall : (a ++ ' ' :: ' ' :: b).all jsWhitespace =
      (a ++ ' ' :: b).all jsWhitespace := by
    simp [List.all_append, List.all_cons, jsWhitespace]
  unfold parseCell
  rw [htok, hall]

/-- Claim C8: the aggregator walks days `1..D` ascending — `dailyTotals` has
exactly `D` entries with entry `i` carrying day `i + 1` — an absent day is
read as the empty string (only `rawByDay[day] || ''` is ever consulted), and
30 days of empty data give the all-zero summary. -/
theorem claim8_day_iteration :
    (∀ (data : RevenueData) (D : Nat),
      (summarizeMonth data D).dailyTotals.length = D) ∧
    (∀ (data : RevenueData) (D i : Nat), i < D →
      ((summarizeMonth data D).dailyTotals.getD i ⟨0, 0⟩).day = i + 1) ∧
    (∀ (data data2 : RevenueData) (D : Nat),
      (∀ d, dayRaw data d = dayRaw data2 d) →
      summarizeMonth data D = summarizeMonth data2 D) ∧
    summarizeMonth (fun _ => none) 30 =
      ⟨0, 0, 0, (List.range 30).map (fun i => ⟨i + 1, 0⟩)⟩ := by
  refine ⟨?_, ?_, ?_, by decide⟩
  · intro data D
    simp [summarizeMonth, monthFold_eq]
  · intro data D i hi
    simp only [summarizeMonth, monthFold_eq]
    rw [List.getD_eq_getElem?_getD, List.getElem?_map, List.getElem?_range hi]
    rfl
  · intro data data2 D h
    have hd : ∀ i, dayResult data i = dayResult data2 i := by
      intro i
      unfold dayResult
      rw [h (i + 1)]
    simp [summarizeMonth, monthFold_eq, hd]

/-- Claim C8 witness: day indexing at `i = 1` of a three-day month, and
absent-day = empty-string at a two-day month. -/
theorem claim8_witness :
    ((summarizeMonth (fun _ => some "50") 3).dailyTotals.getD 1 ⟨0, 0⟩).day = 2 ∧
    summarizeMonth (fun _ => some "") 2 = summarizeMonth (fun _ => none) 2 :=
  ⟨claim8_day_iteration.2.1 (fun _ => some "50") 3 1 (by norm_num),
   claim8_day_iteration.2.2.1 (fun _ => some "") (fun _ => none) 2 (fun _ => rfl)⟩

end HotelRevenue
